import Mathlib

/-!
Verification development for the o365-scanz synchronization engine.

Shallow embedding of the scanner core:
* `src/scanner/graph-api.service.js` — paginated fetcher, retry policy, error mapping
* `src/scanner/concurrency.service.js` — bounded-concurrency dispatcher
* `src/scanner/event-scanner.service.js` / `file-scanner.service.js` — per-owner scans
* `src/storage/event.repository.js` / `database.service.js` — transactional reconciler
* `src/utils/error-handler.js` — error classes

JavaScript conventions modelled explicitly:
* `x || y` on strings/numbers is falsy-aware (`""` and `0` select `y`);
* optional chains (`a?.b?.c`) are flattened into a single `Option` field;
* a function value interpolated into a template literal contributes its source
  text, it is not invoked;
* arguments beyond a function's declared parameter list are dropped at the
  call boundary.
-/

namespace O365

/-- JS `s || null` for an optional string: `undefined`, `null` and `""` all
collapse to `null` (the empty string is falsy). -/
def jsStrOrNone (o : Option String) : Option String :=
  match o with
  | some s => if s = "" then none else some s
  | none => none

/-- JS `v || d` for an optional number: `undefined`, `null` and `0` are falsy
and select the fallback `d`. -/
def jsOrNum (o : Option Nat) (d : Nat) : Nat :=
  match o with
  | some v => if v = 0 then d else v
  | none => d

/-- JS `parseInt` on a header string, restricted to the non-negative values a
`Retry-After` header can carry: the longest leading digit run, `none` for `NaN`
(no leading digits). -/
def jsParseInt (s : String) : Option Nat :=
  let ds := s.takeWhile Char.isDigit
  if ds.isEmpty then none else ds.toNat?

/-- The dynamic access-token argument accepted by the scanners: either a fixed
credential string or a zero-argument asynchronous provider.  A provider is a
function value: it carries its source text (what a JS template literal prints)
and the credential its invocation would resolve to. -/
inductive TokenArg : Type
  | str (s : String)
  | fn (srcText : String) (resolvesTo : String)
deriving DecidableEq, Repr

/-- JS template-literal interpolation `` `${x}` ``: a string interpolates to
itself, a function value interpolates to its source text — it is *not*
invoked. -/
def jsTemplateString : TokenArg → String
  | .str s => s
  | .fn srcText _ => srcText

/-! ## Error model — `src/utils/error-handler.js`, `graph-api.service.js` -/

/-- An error as seen by `fetchWithRetry`: `AppError` / `RateLimitError`
(`error-handler.js:6-43`) carry `statusCode`; the `retryAfter` field is
attached by `handleError` on the 429 path (`graph-api.service.js:141-148`),
`none` standing for an absent field or a `NaN` value (both falsy).
For non-429 statuses the code stores the raw `retry-after` header in
`retryAfter` (`graph-api.service.js:152`), but no code path ever reads it
there (only the 429 branch of `fetchWithRetry` does), so it is modelled as
`none`. -/
structure GError : Type where
  statusCode : Option Nat
  retryAfter : Option Nat
  message : String
deriving DecidableEq, Repr

/-- An axios failure: `response` is absent for network-level errors that never
produced an HTTP response. `dataErrorMessage` flattens
`error.response.data?.error?.message`; `retryAfterHeader` is the raw
`retry-after` response header. -/
structure AxiosResponse : Type where
  status : Nat
  dataErrorMessage : Option String
  retryAfterHeader : Option String
deriving DecidableEq, Repr

structure AxiosError : Type where
  message : String
  response : Option AxiosResponse
deriving DecidableEq, Repr

/-- `GraphApiService.handleError` (`graph-api.service.js:130-157`).
With a response: 429 becomes a `RateLimitError` whose `retryAfter` is
`parseInt(header) * 1000` when the header is present (truthy) and `60000`
otherwise; any other status becomes `AppError(message, status)`.
Without a response: `new AppError(error.message)`, whose status code defaults
to `500` (`error-handler.js:7`). -/
def handleError (e : AxiosError) : GError :=
  match e.response with
  | some r =>
    let msg := (jsStrOrNone r.dataErrorMessage).getD e.message
    if r.status = 429 then
      { statusCode := some 429
        retryAfter :=
          match jsStrOrNone r.retryAfterHeader with
          | some h => (jsParseInt h).map (· * 1000)
          | none => some 60000
        message := msg }
    else
      { statusCode := some r.status, retryAfter := none, message := msg }
  | none => { statusCode := some 500, retryAfter := none, message := e.message }

/-- `GraphApiService.isTransientError` (`graph-api.service.js:120-123`):
`[408, 500, 502, 503, 504].includes(error.statusCode)` — an absent status code
is never in the list. -/
def isTransientError (e : GError) : Bool :=
  match e.statusCode with
  | some c => [408, 500, 502, 503, 504].contains c
  | none => false

/-! ## Paginated fetcher — `graph-api.service.js:44-76` -/

/-- One Graph page: `value` is the item array (absent/falsy pages contribute
nothing), `nextLink` models `response['@odata.nextLink']`. -/
structure Page (α : Type) : Type where
  value : Option (List α)
  nextLink : Option String
deriving DecidableEq, Repr

/-- Items contributed by a page: `if (response.value) allData.push(...)`. -/
def pageItems {α : Type} (p : Page α) : List α := p.value.getD []

/-- `GraphApiService.fetchAllWithPagination` (`graph-api.service.js:44-76`).
The remote service is a map from endpoint to response; `fuel` bounds the
number of loop iterations (the JS `while` is unbounded), `none` meaning the
loop did not terminate within `fuel` pages.  Each iteration issues one
request, appends the page's items, and replaces the endpoint with
`response['@odata.nextLink'] || null`; a thrown error is re-thrown unchanged
(`graph-api.service.js:72-75`).  The inter-page `delay` is a pure time effect
and is not modelled. -/
def fetchAllWithPagination {α : Type} (service : String → Except GError (Page α)) :
    Nat → Option String → List α → Option (Except GError (List α))
  | _, none, acc => some (.ok acc)
  | 0, some _, _ => none
  | fuel + 1, some ep, acc =>
    match service ep with
    | .error e => some (.error e)
    | .ok page =>
      fetchAllWithPagination service fuel (jsStrOrNone page.nextLink) (acc ++ pageItems page)

/-- The remote service serves the page chain `ps` starting from endpoint `ep`:
each page is returned for its endpoint and its cursor points at the next
page's endpoint, with the last page carrying no (or an empty) cursor. -/
def servesChain {α : Type} (service : String → Except GError (Page α)) :
    String → List (Page α) → Prop
  | _, [] => False
  | ep, [p] => service ep = .ok p ∧ jsStrOrNone p.nextLink = none
  | ep, p :: q :: rest =>
    service ep = .ok p ∧
      ∃ ep', jsStrOrNone p.nextLink = some ep' ∧ servesChain service ep' (q :: rest)

/-! ## Retry policy — `graph-api.service.js:84-113` -/

/-- One backoff step of `fetchWithRetry` at retry count `rc`:
a 429 waits `error.retryAfter || 2^rc * 1000` ms, a transient error waits
`2^rc * 1000` ms. -/
def backoffDelay (e : GError) (rc : Nat) : Nat :=
  if e.statusCode = some 429 then jsOrNum e.retryAfter (2 ^ rc * 1000)
  else 2 ^ rc * 1000

/-- An error `fetchWithRetry` would retry (given remaining budget). -/
def retryable (e : GError) : Bool :=
  e.statusCode = some 429 || isTransientError e

/-- Recursion core of `fetchWithRetry`.  `gas` is the remaining retry budget
`maxRetries - retryCount`, so `gas = 0` exactly when the source guard
`retryCount < this.maxRetries` is false.  The operation is indexed by the
attempt number (the source's `retryCount`); besides the result we return the
list of waits (`this.delay(...)` arguments) performed between attempts. -/
def fetchWithRetryGo {α : Type} (op : Nat → Except GError α) :
    Nat → Nat → Except GError α × List Nat
  | rc, 0 =>
    -- `retryCount < this.maxRetries` is false: both retry guards fail, rethrow.
    match op rc with
    | .ok v => (.ok v, [])
    | .error e => (.error e, [])
  | rc, gas + 1 =>
    match op rc with
    | .ok v => (.ok v, [])
    | .error e =>
      if e.statusCode = some 429 then
        let r := fetchWithRetryGo op (rc + 1) gas
        (r.1, jsOrNum e.retryAfter (2 ^ rc * 1000) :: r.2)
      else if isTransientError e then
        let r := fetchWithRetryGo op (rc + 1) gas
        (r.1, 2 ^ rc * 1000 :: r.2)
      else (.error e, [])

/-- `GraphApiService.fetchWithRetry(fetchFunction, retryCount)`
(`graph-api.service.js:84-113`), with `maxRetries` from configuration. -/
def fetchWithRetry {α : Type} (maxRetries : Nat) (op : Nat → Except GError α)
    (retryCount : Nat) : Except GError α × List Nat :=
  fetchWithRetryGo op retryCount (maxRetries - retryCount)

/-! ## Outbound request construction — `graph-api.service.js:20-36` -/

/-- The observable shape of the axios GET issued by `GraphApiService.get`. -/
structure HttpRequest : Type where
  url : String
  authorization : String
  contentType : String
deriving DecidableEq, Repr

/-- `GraphApiService.get` (`graph-api.service.js:20-36`), request construction:
the URL is the endpoint itself when absolute, else `baseUrl + endpoint`, and
the authorization header is the template literal `` `Bearer ${accessToken}` ``.
The body of `get` contains no invocation of `accessToken`: whatever value is
passed — including a provider function — is interpolated, never called. -/
def getRequest (baseUrl endpoint : String) (accessToken : TokenArg) : HttpRequest :=
  { url := if endpoint.startsWith "http" then endpoint else baseUrl ++ endpoint
    authorization := "Bearer " ++ jsTemplateString accessToken
    contentType := "application/json" }

/-! ## Concurrency dispatcher — `src/scanner/concurrency.service.js:18-74` -/

/-- One outcome record of `runConcurrent`: `{success:true, data, item}` on
success, `{success:false, error: error.message, item}` on a thrown error. -/
inductive Outcome (ι α : Type) : Type
  | success (data : α) (item : ι)
  | failure (error : String) (item : ι)
deriving DecidableEq, Repr

/-- The outcome record built for one item from its task result
(`concurrency.service.js:43` and `:57`). -/
def mkOutcome {ι α : Type} (item : ι) : Except String α → Outcome ι α
  | .ok d => .success d item
  | .error e => .failure e item

/-- `items.map((item, index) => ...)`: the JS indexed map. -/
def mapWithIndex {ι β : Type} (f : Nat → ι → β) : Nat → List ι → List β
  | _, [] => []
  | i, x :: xs => f i x :: mapWithIndex f (i + 1) xs

/-- `ConcurrencyService.runConcurrent(items, taskFunction, options)`
(`concurrency.service.js:18-74`).  The task is invoked as
`taskFunction(item, index)`; each invocation's `try/catch` turns its own
result into an outcome record, and `Promise.all` over `items.map(...)`
collects those records at the index of the originating item, regardless of
the order in which the `p-limit` scheduler completes them.  The shared
`completed` counter and `onProgress` callback are pure progress reporting:
no task reads them, so the outcome records do not depend on scheduling and
the dispatcher is embedded as the per-index record list. -/
def runConcurrent {ι α : Type} (items : List ι) (task : ι → Nat → Except String α) :
    List (Outcome ι α) :=
  mapWithIndex (fun i item => mkOutcome item (task item i)) 0 items

/-! ## Storage — `src/storage/database.service.js`, `event.repository.js` -/

/-- A row of `calendar_events` as written by `upsertEventInTransaction`
(`event.repository.js` chunk of `graph-api.service.js:212-260`). -/
structure EventRow : Type where
  id : String
  user_id : String
  subject : Option String
  body_content : Option String
  start_datetime : Option String
  end_datetime : Option String
  location : Option String
  is_all_day : Bool
  is_cancelled : Bool
  organizer_email : Option String
  last_scanned_at : String
  updated_at : String
deriving DecidableEq, Repr

/-- A row of `event_attendees`. -/
structure AttendeeRow : Type where
  event_id : String
  email : Option String
  name : Option String
  response_status : Option String
deriving DecidableEq, Repr

/-- The transactional store visible to the reconciler. -/
structure EventDB : Type where
  events : List EventRow
  attendees : List AttendeeRow
deriving DecidableEq, Repr

/-- An attendee as supplied by Graph; `address`/`name` flatten
`attendee.emailAddress?.address` / `?.name`, `response` flattens
`attendee.status?.response`. -/
structure AttendeeInput : Type where
  address : Option String
  name : Option String
  response : Option String
deriving DecidableEq, Repr

/-- An event entity as supplied by Graph.  Optional chains are flattened:
`bodyContent` is `body?.content`, `startDateTime` is `start?.dateTime`,
`locationDisplayName` is `location?.displayName`, `organizerAddress` is
`organizer?.emailAddress?.address`.  `attendees` is `Option` because the
source guards on `eventData.attendees && eventData.attendees.length > 0`. -/
structure EventData : Type where
  id : String
  subject : Option String
  bodyContent : Option String
  startDateTime : Option String
  endDateTime : Option String
  locationDisplayName : Option String
  isAllDay : Option Bool
  isCancelled : Option Bool
  organizerAddress : Option String
  attendees : Option (List AttendeeInput)
deriving DecidableEq, Repr

/-- The parameter row of the `INSERT INTO calendar_events` statement
(`event.repository.js` values array): `iso` stands for
`s => new Date(s).toISOString()` and `now` for the transaction's
`new Date().toISOString()` timestamp; ternaries and `|| null` are falsy-aware
(`"" ? _ : null` picks `null`). -/
def buildEventRow (iso : String → String) (now : String) (ev : EventData)
    (userId : String) : EventRow :=
  { id := ev.id
    user_id := userId
    subject := ev.subject
    body_content := jsStrOrNone ev.bodyContent
    start_datetime := (jsStrOrNone ev.startDateTime).map iso
    end_datetime := (jsStrOrNone ev.endDateTime).map iso
    location := jsStrOrNone ev.locationDisplayName
    is_all_day := ev.isAllDay.getD false
    is_cancelled := ev.isCancelled.getD false
    organizer_email := jsStrOrNone ev.organizerAddress
    last_scanned_at := now
    updated_at := now }

/-- The attendee insert parameters (`event_attendees` values array). -/
def buildAttendeeRow (eventId : String) (a : AttendeeInput) : AttendeeRow :=
  { event_id := eventId
    email := jsStrOrNone a.address
    name := jsStrOrNone a.name
    response_status := jsStrOrNone a.response }

/-- `INSERT ... ON CONFLICT (id) DO UPDATE SET ...` over the `calendar_events`
table: the `DO UPDATE` clause sets every column of the insert except `id` and
`user_id`, so a conflicting row keeps its stored `user_id`. -/
def upsertEventRow (row : EventRow) (evs : List EventRow) : List EventRow :=
  if evs.any (fun r => r.id = row.id) then
    evs.map fun r => if r.id = row.id then { row with user_id := r.user_id } else r
  else evs ++ [row]

/-- The primitive statements issued inside the reconciler's transaction. -/
inductive DbOp : Type
  | insertParent (row : EventRow)
  | deleteAttendees (eventId : String)
  | insertAttendee (row : AttendeeRow)
deriving DecidableEq, Repr

/-- A failure oracle for the storage engine: which primitive statements
succeed.  Quantifying theorems over all oracles covers "any step throws". -/
def DbEnv : Type := DbOp → Bool

/-- Effect of a successful primitive statement on the store. -/
def applyOp (op : DbOp) (db : EventDB) : EventDB :=
  match op with
  | .insertParent row => { db with events := upsertEventRow row db.events }
  | .deleteAttendees eventId =>
    { db with attendees := db.attendees.filter fun a => ¬ a.event_id = eventId }
  | .insertAttendee row => { db with attendees := db.attendees ++ [row] }

/-- `client.query` for one primitive statement: apply it, or throw.  The
thrown error is identified by the failing statement. -/
def runOp (env : DbEnv) (op : DbOp) (db : EventDB) : Except DbOp EventDB :=
  if env op then .ok (applyOp op db) else .error op

/-- The `for (const attendee of attendees)` insert loop of
`upsertAttendeesInTransaction` (`event.repository.js:274-288`): insert each
attendee in order; a thrown error aborts the loop and propagates. -/
def attendeeInserts (env : DbEnv) (eventId : String) :
    List AttendeeInput → EventDB → Except DbOp EventDB
  | [], db => .ok db
  | a :: rest, db =>
    match runOp env (.insertAttendee (buildAttendeeRow eventId a)) db with
    | .error e => .error e
    | .ok db1 => attendeeInserts env eventId rest db1

/-- `EventRepository.upsertAttendeesInTransaction(eventId, attendees, client)`
(`event.repository.js:269-289`): delete all existing attendees of the event,
then insert the supplied attendees one by one. -/
def upsertAttendeesInTransaction (env : DbEnv) (eventId : String)
    (attendees : List AttendeeInput) (db : EventDB) : Except DbOp EventDB :=
  match runOp env (.deleteAttendees eventId) db with
  | .error e => .error e
  | .ok db1 => attendeeInserts env eventId attendees db1

/-- `EventRepository.upsertEventInTransaction(eventData, userId, client)`
(`event.repository.js:212-260`): parent insert-or-update, then — only when
`eventData.attendees && eventData.attendees.length > 0` — the attendee
replacement, all on the same client; returns `{ id: eventId }`.  A thrown
error propagates at each `await`. -/
def upsertEventInTransaction (iso : String → String) (now : String) (env : DbEnv)
    (ev : EventData) (userId : String) (db : EventDB) : Except DbOp (EventDB × String) :=
  match runOp env (.insertParent (buildEventRow iso now ev userId)) db with
  | .error e => .error e
  | .ok db1 =>
    match ev.attendees with
    | some attendees =>
      if 0 < attendees.length then
        match upsertAttendeesInTransaction env ev.id attendees db1 with
        | .error e => .error e
        | .ok db2 => .ok (db2, ev.id)
      else .ok (db1, ev.id)
    | none => .ok (db1, ev.id)

/-- `DatabaseService.transaction(callback)` (`database.service.js:93-127`):
`BEGIN`, run the callback, `COMMIT` its state on success; on a thrown error
`ROLLBACK` — the store is exactly the pre-call store — and rethrow. -/
def transaction {α : Type} (callback : EventDB → Except DbOp (EventDB × α))
    (db : EventDB) : EventDB × Except DbOp α :=
  match callback db with
  | .ok (db', a) => (db', .ok a)
  | .error e => (db, .error e)

/-- `EventRepository.upsertEvent(eventData, userId)` (`event.repository.js:180-185`):
the whole parent+attendee upsert inside one `db.transaction`. -/
def upsertEvent (iso : String → String) (now : String) (env : DbEnv) (ev : EventData)
    (userId : String) (db : EventDB) : EventDB × Except DbOp String :=
  transaction (upsertEventInTransaction iso now env ev userId) db

/-- The attendee rows stored for one event. -/
def attendeesOf (eventId : String) (db : EventDB) : List AttendeeRow :=
  db.attendees.filter fun a => a.event_id = eventId

/-! ## Event scanner — `src/scanner/event-scanner.service.js` -/

/-- The mutable state the `onPage` closure of `scanUserEvents`
(`event-scanner.service.js:116-130`) closes over: the two counters and the
store the per-event upserts write to. -/
structure EventScanState : Type where
  processed : Nat
  failed : Nat
  db : EventDB
deriving Repr

/-- The `onPage` handler built by `scanUserEvents`: for each event of the
page, upsert it; success increments `eventsProcessed`, a thrown error is
caught, increments `eventsFailed`, and the loop continues. -/
def eventScanOnPage (iso : String → String) (now : String) (env : DbEnv)
    (userId : String) (events : List EventData) (st : EventScanState) : EventScanState :=
  events.foldl
    (fun st ev =>
      match upsertEvent iso now env ev userId st.db with
      | (db', .ok _) => { st with processed := st.processed + 1, db := db' }
      | (db', .error _) => { st with failed := st.failed + 1, db := db' })
    st

/-- The options object `{ onPage }` passed as third argument to the fetcher. -/
structure PageOptions (α σ : Type) : Type where
  onPage : List α → σ → σ

/-- `scanUserEvents` calls
`fetchAllWithPagination(endpoint, tokenProvider, { onPage })`
(`event-scanner.service.js:115`), but the fetcher declares only
`(endpoint, accessToken)` (`graph-api.service.js:44`).  JavaScript drops
arguments beyond a function's declared parameter list, so the options object
— and with it the `onPage` callback and the state it would have mutated — is
discarded at this call boundary: the call behaves exactly like
`fetchAllWithPagination(endpoint, accessToken)` and returns the caller's
state untouched. -/
def fetchAllWithPaginationCalledWithOptions {α σ : Type}
    (service : String → Except GError (Page α)) (fuel : Nat) (endpoint : String)
    (_opts : PageOptions α σ) (st : σ) : Option (Except GError (List α)) × σ :=
  (fetchAllWithPagination service fuel (some endpoint) [], st)

/-- The calendar listing endpoint built by `scanUserEvents`
(`event-scanner.service.js:99-108`).  The optional `$filter` date suffix only
alters this endpoint string and is irrelevant to the claims, so the
no-options form is used. -/
def eventsEndpoint (userId : String) : String :=
  "/users/" ++ userId ++ "/calendar/events"

/-- `EventScannerService.scanUserEvents(userId, accessTokenOrProvider, options)`
(`event-scanner.service.js:91-154`).  The page fetch runs inside
`fetchWithRetry(() => fetchAllWithPagination(...))`; the remote service is a
pure map from endpoint to response, so every retry attempt of the closure
returns the same value.  On success the returned summary reads the counters
out of the closure state; in the catch clause a 404 or 403 yields the benign
`{eventsProcessed: 0, eventsFailed: 0}`, anything else rethrows.  `none`
stands for pagination that did not terminate within `fuel` pages. -/
def scanUserEvents (iso : String → String) (now : String) (env : DbEnv)
    (service : String → Except GError (Page EventData)) (maxRetries pageFuel : Nat)
    (userId : String) (db : EventDB) :
    Option (Except GError (Nat × Nat) × EventDB) :=
  let st0 : EventScanState := { processed := 0, failed := 0, db := db }
  let opts : PageOptions EventData EventScanState :=
    { onPage := eventScanOnPage iso now env userId }
  match fetchAllWithPaginationCalledWithOptions service pageFuel (eventsEndpoint userId) opts st0 with
  | (none, _) => none
  | (some pageResult, st) =>
    match (fetchWithRetry maxRetries (fun _ => pageResult) 0).1 with
    | .ok _ => some (.ok (st.processed, st.failed), st.db)
    | .error e =>
      if e.statusCode = some 404 ∨ e.statusCode = some 403 then some (.ok (0, 0), st.db)
      else some (.error e, st.db)

/-! ## File scanner — `src/scanner/file-scanner.service.js` -/

/-- A OneDrive child item: `file` and `folder` model the truthiness of the
`item.file` / `item.folder` facet objects. -/
structure DriveItem : Type where
  id : String
  file : Bool
  folder : Bool
deriving DecidableEq, Repr

/-- The children listing endpoint (`file-scanner.service.js:130`). -/
def childrenEndpoint (userId folderId : String) : String :=
  "/users/" ++ userId ++ "/drive/items/" ++ folderId ++ "/children"

/-- The `for (const item of items)` loop of `scanFolderRecursively`
(`file-scanner.service.js:137-150`): a file is pushed onto `allFiles`, a
folder is recursed into (`recurse`) and its files concatenated, anything else
is skipped; an error thrown by the recursion propagates. -/
def scanFolderLoop (recurse : String → Option (Except GError (List DriveItem))) :
    List DriveItem → List DriveItem → Option (Except GError (List DriveItem))
  | [], acc => some (.ok acc)
  | item :: rest, acc =>
    if item.file then scanFolderLoop recurse rest (acc ++ [item])
    else if item.folder then
      match recurse item.id with
      | none => none
      | some (.error e) => some (.error e)
      | some (.ok sub) => scanFolderLoop recurse rest (acc ++ sub)
    else scanFolderLoop recurse rest acc

/-- `FileScannerService.scanFolderRecursively(userId, folderId, accessToken)`
(`file-scanner.service.js:127-153`): list the folder's children through
`fetchWithRetry(() => fetchAllWithPagination(...))` (the service is a pure
map, so every retry attempt returns the same value), then walk the items,
buffering all discovered files of the whole subtree into one returned array.
`fuel` bounds the recursion depth, `none` meaning the walk did not finish
within it. -/
def scanFolderRecursively (service : String → Except GError (Page DriveItem))
    (maxRetries pageFuel : Nat) (userId : String) :
    Nat → String → Option (Except GError (List DriveItem))
  | 0, _ => none
  | fuel + 1, folderId =>
    match fetchAllWithPagination service pageFuel (some (childrenEndpoint userId folderId)) [] with
    | none => none
    | some pageResult =>
      match (fetchWithRetry maxRetries (fun _ => pageResult) 0).1 with
      | .error e => some (.error e)
      | .ok items =>
        scanFolderLoop (fun fid => scanFolderRecursively service maxRetries pageFuel userId fuel fid)
          items []

/-- A row of the `files` table; `ON CONFLICT (id) DO UPDATE` does not touch
`user_id`, so an existing row keeps its stored owner (only metadata columns,
not modelled, are refreshed). -/
structure FileRow : Type where
  id : String
  user_id : String
deriving DecidableEq, Repr

abbrev FileDB : Type := List FileRow

/-- `FileRepository.upsertFile` effect on the store. -/
def upsertFileRow (fileId userId : String) (db : FileDB) : FileDB :=
  if db.any (fun r => r.id = fileId) then db else db ++ [⟨fileId, userId⟩]

/-- The persistence loop of `scanUserFiles` (`file-scanner.service.js:92-102`):
each file is upserted inside its own `try/catch`; a failure (per the oracle
`fenv`) is logged and skipped, and the loop continues with the next file. -/
def persistFiles (fenv : String → Bool) (userId : String) (files : List DriveItem)
    (db : FileDB) : FileDB :=
  files.foldl (fun db f => if fenv f.id then upsertFileRow f.id userId db else db) db

/-- `FileScannerService.scanUserFiles(userId, accessToken)`
(`file-scanner.service.js:82-118`): crawl the whole OneDrive subtree from
`root`, then persist every discovered file; in the catch clause only a 404
(`user does not have OneDrive`) yields the benign empty array — any other
status, 403 included, rethrows.  Returns the discovered files and the final
store. -/
def scanUserFiles (service : String → Except GError (Page DriveItem))
    (fenv : String → Bool) (maxRetries pageFuel crawlFuel : Nat) (userId : String)
    (db : FileDB) : Option (Except GError (List DriveItem) × FileDB) :=
  match scanFolderRecursively service maxRetries pageFuel userId crawlFuel "root" with
  | none => none
  | some (.error e) =>
    if e.statusCode = some 404 then some (.ok [], db) else some (.error e, db)
  | some (.ok allFiles) => some (.ok allFiles, persistFiles fenv userId allFiles db)

/-! ## Helper lemmas -/

theorem mapWithIndex_length {ι β : Type} (f : Nat → ι → β) :
    ∀ (s : Nat) (xs : List ι), (mapWithIndex f s xs).length = xs.length := by
  intro s xs
  induction xs generalizing s with
  | nil => rfl
  | cons x xs ih => simp [mapWithIndex, ih]

theorem mapWithIndex_getElem? {ι β : Type} (f : Nat → ι → β) :
    ∀ (s : Nat) (xs : List ι) (i : Nat),
      (mapWithIndex f s xs)[i]? = (xs[i]?).map (f (s + i)) := by
  intro s xs
  induction xs generalizing s with
  | nil => intro i; simp [mapWithIndex]
  | cons x xs ih =>
    intro i
    match i with
    | 0 => simp [mapWithIndex]
    | i + 1 =>
      simp only [mapWithIndex, List.getElem?_cons_succ, ih (s + 1) i]
      have : s + 1 + i = s + (i + 1) := by omega
      rw [this]

/-- The waits the retry policy performs for a run of consecutive failures
starting at retry count `rc`. -/
def backoffSchedule : List GError → Nat → List Nat
  | [], _ => []
  | e :: rest, rc => backoffDelay e rc :: backoffSchedule rest (rc + 1)

theorem retryable_false_iff (e : GError) :
    retryable e = false ↔ ¬ e.statusCode = some 429 ∧ isTransientError e = false := by
  simp [retryable]

theorem fetchWithRetryGo_ok {α : Type} (op : Nat → Except GError α) (rc gas : Nat)
    (v : α) (h : op rc = .ok v) : fetchWithRetryGo op rc gas = (.ok v, []) := by
  cases gas <;> simp [fetchWithRetryGo, h]

theorem fetchWithRetryGo_const_error {α : Type} (e : GError) :
    ∀ (gas rc : Nat), (fetchWithRetryGo (fun _ => (Except.error e : Except GError α)) rc gas).1 = .error e := by
  intro gas
  induction gas with
  | zero => intro rc; simp [fetchWithRetryGo]
  | succ g ih =>
    intro rc
    simp only [fetchWithRetryGo]
    split <;> [simp [ih]; skip]
    split <;> simp [ih]

theorem fetchWithRetryGo_not_retryable {α : Type} (op : Nat → Except GError α)
    (rc gas : Nat) (e : GError) (h : op rc = .error e) (hr : retryable e = false) :
    fetchWithRetryGo op rc gas = (.error e, []) := by
  rw [retryable_false_iff] at hr
  cases gas <;> simp [fetchWithRetryGo, h, hr.1, hr.2]

theorem fetchWithRetryGo_schedule {α : Type} :
    ∀ (errs : List GError) (op : Nat → Except GError α) (rc gas : Nat) (v : α),
      errs.length ≤ gas →
      (∀ i (h : i < errs.length), op (rc + i) = .error (errs.get ⟨i, h⟩)) →
      (∀ e ∈ errs, retryable e = true) →
      op (rc + errs.length) = .ok v →
      fetchWithRetryGo op rc gas = (.ok v, backoffSchedule errs rc) := by
  intro errs
  induction errs with
  | nil =>
    intro op rc gas v _ _ _ hok
    simp only [List.length_nil, Nat.add_zero] at hok
    simp [fetchWithRetryGo_ok op rc gas v hok, backoffSchedule]
  | cons e rest ih =>
    intro op rc gas v hlen herr hretry hok
    have h0 : op rc = .error e := by
      have := herr 0 (by simp)
      simpa using this
    match gas with
    | 0 => exact absurd hlen (by simp)
    | g + 1 =>
      have hrec : fetchWithRetryGo op (rc + 1) g = (.ok v, backoffSchedule rest (rc + 1)) := by
        apply ih op (rc + 1) g v
        · simpa using Nat.lt_succ_iff.mp (Nat.lt_of_lt_of_le (Nat.lt_succ_self _) hlen)
        · intro i hi
          have := herr (i + 1) (by simpa using Nat.succ_lt_succ hi)
          have harith : rc + (i + 1) = rc + 1 + i := by omega
          rw [harith] at this
          simpa using this
        · intro x hx; exact hretry x (List.mem_cons_of_mem _ hx)
        · have harith : rc + (e :: rest).length = rc + 1 + rest.length := by simp; omega
          rw [harith] at hok
          exact hok
      have hre : retryable e = true := hretry e (List.mem_cons_self _ _)
      simp only [retryable, Bool.or_eq_true, decide_eq_true_eq] at hre
      by_cases h429 : e.statusCode = some 429
      · simp [fetchWithRetryGo, h0, h429, hrec, backoffSchedule, backoffDelay]
      · have htr : isTransientError e = true := by
          rcases hre with h | h
          · exact absurd h h429
          · exact h
        simp [fetchWithRetryGo, h0, h429, htr, hrec, backoffSchedule, backoffDelay]

theorem fetchWithRetryGo_exhaust {α : Type} :
    ∀ (gas : Nat) (f : Nat → GError) (op : Nat → Except GError α) (rc : Nat),
      (∀ i, i ≤ gas → op (rc + i) = .error (f i)) →
      (∀ i, i < gas → retryable (f i) = true) →
      fetchWithRetryGo op rc gas =
        (.error (f gas), backoffSchedule ((List.range gas).map f) rc) := by
  intro gas
  induction gas with
  | zero =>
    intro f op rc herr _
    have h0 : op rc = .error (f 0) := by simpa using herr 0 (Nat.le_refl 0)
    simp [fetchWithRetryGo, h0, backoffSchedule]
  | succ g ih =>
    intro f op rc herr hretry
    have h0 : op rc = .error (f 0) := by simpa using herr 0 (Nat.zero_le _)
    have hrec : fetchWithRetryGo op (rc + 1) g =
        (.error (f (g + 1)), backoffSchedule ((List.range g).map fun i => f (i + 1)) (rc + 1)) := by
      have := ih (fun i => f (i + 1)) op (rc + 1)
        (by
          intro i hi
          have := herr (i + 1) (Nat.succ_le_succ hi)
          have harith : rc + (i + 1) = rc + 1 + i := by omega
          rw [harith] at this
          exact this)
        (by intro i hi; exact hretry (i + 1) (Nat.succ_lt_succ hi))
      simpa using this
    have hsched : backoffSchedule ((List.range (g + 1)).map f) rc =
        backoffDelay (f 0) rc :: backoffSchedule ((List.range g).map fun i => f (i + 1)) (rc + 1) := by
      rw [List.range_succ_eq_map]
      simp only [List.map_cons, List.map_map, backoffSchedule]
      rfl
    have hre : retryable (f 0) = true := hretry 0 (Nat.succ_pos _)
    simp only [retryable, Bool.or_eq_true, decide_eq_true_eq] at hre
    by_cases h429 : (f 0).statusCode = some 429
    · simp [fetchWithRetryGo, h0, h429, hrec, hsched, backoffDelay]
    · have htr : isTransientError (f 0) = true := by
        rcases hre with h | h
        · exact absurd h h429
        · exact h
      simp [fetchWithRetryGo, h0, h429, htr, hrec, hsched, backoffDelay]

theorem fetchAllWithPagination_chain {α : Type}
    (service : String → Except GError (Page α)) :
    ∀ (ps : List (Page α)) (ep : String) (fuel : Nat) (acc : List α),
      servesChain service ep ps → ps.length ≤ fuel →
      fetchAllWithPagination service fuel (some ep) acc =
        some (.ok (acc ++ (ps.map pageItems).flatten)) := by
  intro ps
  induction ps with
  | nil => intro ep fuel acc hchain _; exact absurd hchain (by simp [servesChain])
  | cons p tail ih =>
    intro ep fuel acc hchain hlen
    match fuel with
    | 0 => exact absurd hlen (by simp)
    | fuel + 1 =>
      match tail with
      | [] =>
        obtain ⟨hserv, hnext⟩ := hchain
        simp [fetchAllWithPagination, hserv, hnext]
      | q :: rest =>
        obtain ⟨hserv, ep', hnext, hrest⟩ := hchain
        have := ih ep' fuel (acc ++ pageItems p) hrest (by simpa using Nat.lt_succ_iff.mp (Nat.lt_of_lt_of_le (by simp) hlen))
        simp [fetchAllWithPagination, hserv, hnext, this]

theorem runOp_ok {env : DbEnv} {op : DbOp} {db db' : EventDB}
    (h : runOp env op db = .ok db') : env op = true ∧ db' = applyOp op db := by
  by_cases he : env op = true
  · refine ⟨he, ?_⟩
    simp [runOp, he] at h
    exact h.symm
  · simp [runOp, he] at h

theorem runOp_error {env : DbEnv} {op : DbOp} {db : EventDB} {e : DbOp}
    (h : runOp env op db = .error e) : e = op ∧ env op = false := by
  by_cases he : env op = true
  · simp [runOp, he] at h
  · simp [runOp, he] at h
    exact ⟨h.symm, by simpa using he⟩

theorem attendeeInserts_ok {env : DbEnv} (eventId : String) :
    ∀ (l : List AttendeeInput) (db db' : EventDB),
      attendeeInserts env eventId l db = .ok db' →
      db'.events = db.events ∧
        db'.attendees = db.attendees ++ l.map (buildAttendeeRow eventId) := by
  intro l
  induction l with
  | nil =>
    intro db db' h
    simp only [attendeeInserts, Except.ok.injEq] at h
    subst h
    simp
  | cons a rest ih =>
    intro db db' h
    simp only [attendeeInserts] at h
    cases hop : runOp env (.insertAttendee (buildAttendeeRow eventId a)) db with
    | error e => rw [hop] at h; simp at h
    | ok db1 =>
      rw [hop] at h
      simp only at h
      obtain ⟨_, hdb1⟩ := runOp_ok hop
      obtain ⟨hev, hatt⟩ := ih db1 db' h
      subst hdb1
      constructor
      · simpa [applyOp] using hev
      · simp only [applyOp] at hatt
        simp [hatt, List.append_assoc]

theorem attendeeInserts_error {env : DbEnv} (eventId : String) :
    ∀ (l : List AttendeeInput) (db : EventDB) (e : DbOp),
      attendeeInserts env eventId l db = .error e →
      env e = false := by
  intro l
  induction l with
  | nil => intro db e h; simp [attendeeInserts] at h
  | cons a rest ih =>
    intro db e h
    simp only [attendeeInserts] at h
    cases hop : runOp env (.insertAttendee (buildAttendeeRow eventId a)) db with
    | error e' =>
      rw [hop] at h
      simp only [Except.error.injEq] at h
      obtain ⟨he, henv⟩ := runOp_error hop
      subst h
      rw [he]
      exact henv
    | ok db1 =>
      rw [hop] at h
      simp only at h
      exact ih db1 e h

theorem upsertAttendeesInTransaction_ok {env : DbEnv} {eventId : String}
    {l : List AttendeeInput} {db db' : EventDB}
    (h : upsertAttendeesInTransaction env eventId l db = .ok db') :
    db'.events = db.events ∧
      db'.attendees =
        db.attendees.filter (fun a => ¬ a.event_id = eventId)
          ++ l.map (buildAttendeeRow eventId) := by
  unfold upsertAttendeesInTransaction at h
  cases hdel : runOp env (.deleteAttendees eventId) db with
  | error e => rw [hdel] at h; simp at h
  | ok db1 =>
    rw [hdel] at h
    simp only at h
    obtain ⟨_, hdb1⟩ := runOp_ok hdel
    obtain ⟨hev, hatt⟩ := attendeeInserts_ok eventId l db1 db' h
    subst hdb1
    constructor
    · simpa [applyOp] using hev
    · simpa [applyOp] using hatt

theorem upsertAttendeesInTransaction_error {env : DbEnv} {eventId : String}
    {l : List AttendeeInput} {db : EventDB} {e : DbOp}
    (h : upsertAttendeesInTransaction env eventId l db = .error e) :
    env e = false := by
  unfold upsertAttendeesInTransaction at h
  cases hdel : runOp env (.deleteAttendees eventId) db with
  | error e' =>
    rw [hdel] at h
    simp only [Except.error.injEq] at h
    obtain ⟨he, henv⟩ := runOp_error hdel
    subst h
    rw [he]
    exact henv
  | ok db1 =>
    rw [hdel] at h
    simp only at h
    exact attendeeInserts_error eventId l db1 e h

/-- The attendee table contents after the commit of `upsertEventInTransaction`
for `ev`, starting from store `db`: whole-set replacement when a non-empty
attendee collection is supplied, untouched otherwise. -/
def committedAttendees (ev : EventData) (db : EventDB) : List AttendeeRow :=
  match ev.attendees with
  | some l =>
    if 0 < l.length then
      db.attendees.filter (fun a => ¬ a.event_id = ev.id) ++ l.map (buildAttendeeRow ev.id)
    else db.attendees
  | none => db.attendees

theorem upsertEventInTransaction_ok {iso : String → String} {now : String}
    {env : DbEnv} {ev : EventData} {userId : String} {db db' : EventDB} {r : String}
    (h : upsertEventInTransaction iso now env ev userId db = .ok (db', r)) :
    r = ev.id ∧
      db'.events = upsertEventRow (buildEventRow iso now ev userId) db.events ∧
      db'.attendees = committedAttendees ev db := by
  unfold upsertEventInTransaction at h
  cases hp : runOp env (.insertParent (buildEventRow iso now ev userId)) db with
  | error e => rw [hp] at h; simp at h
  | ok db1 =>
    rw [hp] at h
    simp only at h
    obtain ⟨_, hdb1⟩ := runOp_ok hp
    have hev1 : db1.events = upsertEventRow (buildEventRow iso now ev userId) db.events := by
      rw [hdb1]; rfl
    have hatt1 : db1.attendees = db.attendees := by
      rw [hdb1]; rfl
    match hattn : ev.attendees with
    | none =>
      rw [hattn] at h
      simp only [Except.ok.injEq, Prod.mk.injEq] at h
      obtain ⟨hdb', hr⟩ := h
      subst hdb'
      exact ⟨hr.symm, hev1, by rw [hatt1, committedAttendees, hattn]⟩
    | some l =>
      rw [hattn] at h
      by_cases hlen : 0 < l.length
      · simp only [hlen, if_pos] at h
        cases hup : upsertAttendeesInTransaction env ev.id l db1 with
        | error e => rw [hup] at h; simp at h
        | ok db2 =>
          rw [hup] at h
          simp only [Except.ok.injEq, Prod.mk.injEq] at h
          obtain ⟨hdb', hr⟩ := h
          subst hdb'
          obtain ⟨hev2, hatt2⟩ := upsertAttendeesInTransaction_ok hup
          refine ⟨hr.symm, by rw [hev2, hev1], ?_⟩
          rw [hatt2, hatt1, committedAttendees, hattn]
          simp [hlen]
      · simp only [if_neg hlen, Except.ok.injEq, Prod.mk.injEq] at h
        obtain ⟨hdb', hr⟩ := h
        subst hdb'
        refine ⟨hr.symm, hev1, ?_⟩
        rw [hatt1, committedAttendees, hattn]
        simp [hlen]

theorem upsertEventInTransaction_error {iso : String → String} {now : String}
    {env : DbEnv} {ev : EventData} {userId : String} {db : EventDB} {e : DbOp}
    (h : upsertEventInTransaction iso now env ev userId db = .error e) :
    env e = false := by
  unfold upsertEventInTransaction at h
  cases hp : runOp env (.insertParent (buildEventRow iso now ev userId)) db with
  | error e' =>
    rw [hp] at h
    simp only [Except.error.injEq] at h
    obtain ⟨he, henv⟩ := runOp_error hp
    subst h
    rw [he]
    exact henv
  | ok db1 =>
    rw [hp] at h
    simp only at h
    match hattn : ev.attendees with
    | none => rw [hattn] at h; simp at h
    | some l =>
      rw [hattn] at h
      by_cases hlen : 0 < l.length
      · simp only [hlen, if_pos] at h
        cases hup : upsertAttendeesInTransaction env ev.id l db1 with
        | error e' =>
          rw [hup] at h
          simp only [Except.error.injEq] at h
          subst h
          exact upsertAttendeesInTransaction_error hup
        | ok db2 => rw [hup] at h; simp at h
      · simp only [if_neg hlen] at h
        simp at h

theorem upsertEvent_error_state {iso : String → String} {now : String} {env : DbEnv}
    {ev : EventData} {userId : String} {db : EventDB} {e : DbOp}
    (h : (upsertEvent iso now env ev userId db).2 = .error e) :
    (upsertEvent iso now env ev userId db).1 = db ∧ env e = false := by
  unfold upsertEvent transaction at h ⊢
  cases htx : upsertEventInTransaction iso now env ev userId db with
  | error e' =>
    rw [htx] at h
    simp only [Except.error.injEq] at h
    subst h
    simp only []
    exact ⟨trivial, upsertEventInTransaction_error htx⟩
  | ok p =>
    rw [htx] at h
    simp at h

theorem upsertEvent_ok_state {iso : String → String} {now : String} {env : DbEnv}
    {ev : EventData} {userId : String} {db : EventDB} {r : String}
    (h : (upsertEvent iso now env ev userId db).2 = .ok r) :
    r = ev.id ∧
      (upsertEvent iso now env ev userId db).1.events
        = upsertEventRow (buildEventRow iso now ev userId) db.events ∧
      (upsertEvent iso now env ev userId db).1.attendees = committedAttendees ev db := by
  unfold upsertEvent transaction at h ⊢
  cases htx : upsertEventInTransaction iso now env ev userId db with
  | error e' =>
    rw [htx] at h
    simp at h
  | ok p =>
    obtain ⟨db2, r2⟩ := p
    rw [htx] at h
    simp only [Except.ok.injEq] at h
    subst h
    simp only []
    exact upsertEventInTransaction_ok htx

theorem filter_filter_of_imp {α : Type} (p q : α → Bool)
    (himp : ∀ a, p a = true → q a = true) :
    ∀ xs : List α, (xs.filter q).filter p = xs.filter p := by
  intro xs
  induction xs with
  | nil => rfl
  | cons a rest ih =>
    cases hq : q a with
    | true =>
      cases hp : p a with
      | true => simp [List.filter_cons, hq, hp, ih]
      | false => simp [List.filter_cons, hq, hp, ih]
    | false =>
      have hp : p a = false := by
        cases hpa : p a with
        | true => exact absurd (himp a hpa) (by simp [hq])
        | false => rfl
      simp [List.filter_cons, hq, hp, ih]

theorem filter_eq_nil_of_all_false {α : Type} (p : α → Bool) :
    ∀ xs : List α, (∀ a ∈ xs, p a = false) → xs.filter p = [] := by
  intro xs
  induction xs with
  | nil => intro _; rfl
  | cons a rest ih =>
    intro hall
    have hpa : p a = false := hall a (List.mem_cons_self _ _)
    simp [List.filter_cons, hpa, ih fun b hb => hall b (List.mem_cons_of_mem _ hb)]

theorem attendeesOf_filter_ne (eventId : String) (xs : List AttendeeRow) :
    (xs.filter (fun a => ¬ a.event_id = eventId)).filter (fun a => a.event_id = eventId) = [] := by
  apply filter_eq_nil_of_all_false
  intro a ha
  have := List.mem_filter.mp ha
  simpa using this.2

theorem attendeesOf_filter_rows (eventId : String) (l : List AttendeeInput) :
    (l.map (buildAttendeeRow eventId)).filter (fun a => a.event_id = eventId)
      = l.map (buildAttendeeRow eventId) := by
  apply List.filter_eq_self.mpr
  intro a ha
  obtain ⟨x, _, hx⟩ := List.mem_map.mp ha
  subst hx
  simp [buildAttendeeRow]

theorem attendeesOf_filter_rows_other {eventId otherId : String} (hne : ¬ otherId = eventId)
    (l : List AttendeeInput) :
    (l.map (buildAttendeeRow eventId)).filter (fun a => a.event_id = otherId) = [] := by
  apply filter_eq_nil_of_all_false
  intro a ha
  obtain ⟨x, _, hx⟩ := List.mem_map.mp ha
  subst hx
  simp [buildAttendeeRow]
  intro hc
  exact hne hc.symm

theorem attendeesOf_filter_ne_other {eventId otherId : String} (hne : ¬ otherId = eventId)
    (xs : List AttendeeRow) :
    (xs.filter (fun a => ¬ a.event_id = eventId)).filter (fun a => a.event_id = otherId)
      = xs.filter (fun a => a.event_id = otherId) := by
  apply filter_filter_of_imp
  intro a ha
  simp at ha ⊢
  rw [ha]
  intro hc
  exact hne hc

/-- The stored attendee set of the upserted event after a commit. -/
theorem attendeesOf_committed (ev : EventData) (db : EventDB) (atts : List AttendeeRow)
    (h : atts = committedAttendees ev db) :
    atts.filter (fun a => a.event_id = ev.id) =
      match ev.attendees with
      | some l =>
        if 0 < l.length then l.map (buildAttendeeRow ev.id) else attendeesOf ev.id db
      | none => attendeesOf ev.id db := by
  subst h
  unfold committedAttendees
  match ev.attendees with
  | none => rfl
  | some l =>
    by_cases hlen : 0 < l.length
    · simp only [hlen, if_pos, List.filter_append,
        attendeesOf_filter_ne ev.id db.attendees, attendeesOf_filter_rows ev.id l,
        List.nil_append]
    · simp [hlen, attendeesOf]

/-- Other events' stored attendees are untouched by a commit for `ev`. -/
theorem attendeesOf_committed_other (ev : EventData) (db : EventDB)
    (atts : List AttendeeRow) (h : atts = committedAttendees ev db)
    (otherId : String) (hne : ¬ otherId = ev.id) :
    atts.filter (fun a => a.event_id = otherId) = attendeesOf otherId db := by
  subst h
  unfold committedAttendees
  match ev.attendees with
  | none => rfl
  | some l =>
    by_cases hlen : 0 < l.length
    · simp only [hlen, if_pos, List.filter_append,
        attendeesOf_filter_ne_other hne db.attendees,
        attendeesOf_filter_rows_other hne l, List.append_nil]
      rfl
    · simp [hlen, attendeesOf]

/-! ### File persistence lemmas -/

theorem upsertFileRow_mono {row : FileRow} {db : FileDB} (h : row ∈ db)
    (fileId userId : String) : row ∈ upsertFileRow fileId userId db := by
  unfold upsertFileRow
  split
  · exact h
  · exact List.mem_append_left _ h

theorem upsertFileRow_has (fileId userId : String) (db : FileDB) :
    ∃ r ∈ upsertFileRow fileId userId db, r.id = fileId := by
  unfold upsertFileRow
  split
  · next hany =>
    obtain ⟨r, hr, hid⟩ := List.any_eq_true.mp hany
    exact ⟨r, hr, by simpa using hid⟩
  · exact ⟨⟨fileId, userId⟩, by simp⟩

theorem persistFiles_mono {fenv : String → Bool} {userId : String} :
    ∀ (files : List DriveItem) (db : FileDB) (row : FileRow), row ∈ db →
      row ∈ persistFiles fenv userId files db := by
  intro files
  induction files with
  | nil => intro db row h; exact h
  | cons f rest ih =>
    intro db row h
    unfold persistFiles
    simp only [List.foldl_cons]
    apply ih
    by_cases hf : fenv f.id = true
    · simp only [hf, if_pos]
      exact upsertFileRow_mono h f.id userId
    · simp only [hf]
      simpa [hf] using h

theorem persistFiles_mem {fenv : String → Bool} {userId : String} :
    ∀ (files : List DriveItem) (db : FileDB) (f : DriveItem), f ∈ files →
      fenv f.id = true →
      ∃ r ∈ persistFiles fenv userId files db, r.id = f.id := by
  intro files
  induction files with
  | nil => intro db f h; simp at h
  | cons g rest ih =>
    intro db f hmem hf
    rcases List.mem_cons.mp hmem with heq | htail
    · subst heq
      unfold persistFiles
      simp only [List.foldl_cons, hf, if_pos]
      obtain ⟨r, hr, hid⟩ := upsertFileRow_has f.id userId db
      exact ⟨r, persistFiles_mono rest _ r hr, hid⟩
    · unfold persistFiles
      simp only [List.foldl_cons]
      exact ih _ f htail hf

/-- The value returned by `scanUserFiles` — discovered items or propagated
error — does not depend on the persistence oracle or on the prior store:
persistence failures are invisible in the function's result. -/
theorem scanUserFiles_result_env (service : String → Except GError (Page DriveItem))
    (fenv fenv' : String → Bool) (maxRetries pageFuel crawlFuel : Nat)
    (userId : String) (db db' : FileDB) :
    (scanUserFiles service fenv maxRetries pageFuel crawlFuel userId db).map Prod.fst
      = (scanUserFiles service fenv' maxRetries pageFuel crawlFuel userId db').map Prod.fst := by
  unfold scanUserFiles
  cases scanFolderRecursively service maxRetries pageFuel userId crawlFuel "root" with
  | none => rfl
  | some r =>
    cases r with
    | error e =>
      by_cases h : e.statusCode = some 404 <;> simp [h]
    | ok files => simp

/-! ## Concrete fixtures used by witnesses and counterexamples -/

def a1 : AttendeeInput := ⟨some "a1@example.com", some "A One", some "accepted"⟩

def a2 : AttendeeInput := ⟨some "a2@example.com", some "A Two", some "tentative"⟩

/-- Event E1, new, with attendees `[a1, a2]` (the spec's reconciler-atomicity
scenario). -/
def e1 : EventData :=
  ⟨"E1", some "standup", none, none, none, none, none, none, none, some [a1, a2]⟩

/-- Storage oracle under which inserting `a2`'s attendee row throws and every
other statement succeeds. -/
def envFailA2 : DbEnv := fun op =>
  if op = DbOp.insertAttendee (buildAttendeeRow "E1" a2) then false else true

def envAllOk : DbEnv := fun _ => true

def emptyEventDB : EventDB := ⟨[], []⟩

/-! ## Claims -/

/-- C1: for every event entity and owner id, `upsertEvent` runs the parent
insert-or-update and the attendee replacement inside one database
transaction; if any step throws, the transaction rolls back in full — the
store after the call is exactly the store before it (an existing
parent+children untouched, a new parent entirely absent, no partial attendee
set) — and the thrown error (a statement the oracle failed) propagates to the
caller; on success both the parent upsert and, for a non-empty supplied
collection, the whole-set attendee replacement are committed together. -/
theorem claim_C1_upsertEvent_transactional
    (iso : String → String) (now : String) (env : DbEnv) (ev : EventData)
    (userId : String) (db : EventDB) :
    (∀ e : DbOp, (upsertEvent iso now env ev userId db).2 = .error e →
      (upsertEvent iso now env ev userId db).1 = db ∧ env e = false)
    ∧ (∀ r : String, (upsertEvent iso now env ev userId db).2 = .ok r →
      r = ev.id ∧
        (upsertEvent iso now env ev userId db).1.events
          = upsertEventRow (buildEventRow iso now ev userId) db.events ∧
        (upsertEvent iso now env ev userId db).1.attendees = committedAttendees ev db) :=
  ⟨fun _ h => upsertEvent_error_state h, fun _ h => upsertEvent_ok_state h⟩

/-- C1 witness: upserting the new event E1 with attendees `[a1, a2]` into an
empty store, where inserting `a2` throws, leaves the store exactly empty — no
parent row and no `a1` row. -/
theorem claim_C1_witness :
    (upsertEvent (fun s => s) "t0" envFailA2 e1 "u1" emptyEventDB).1 = emptyEventDB
      ∧ envFailA2 (DbOp.insertAttendee (buildAttendeeRow "E1" a2)) = false :=
  (claim_C1_upsertEvent_transactional (fun s => s) "t0" envFailA2 e1 "u1" emptyEventDB).1
    (DbOp.insertAttendee (buildAttendeeRow "E1" a2)) (by rfl)

/-- C2: `runConcurrent` returns exactly one outcome record per input item, at
the same index as the item — `{success:true, data, item}` on success,
`{success:false, error, item}` on a thrown error — and an item's outcome
depends only on its own task invocation: changing (even failing) the task
elsewhere does not change it. -/
theorem claim_C2_runConcurrent_outcomes {ι α : Type} (items : List ι)
    (task : ι → Nat → Except String α) :
    (runConcurrent items task).length = items.length
    ∧ (∀ i : Nat, (runConcurrent items task)[i]?
        = (items[i]?).map fun item => mkOutcome item (task item i))
    ∧ (∀ (task' : ι → Nat → Except String α) (i : Nat),
        ((items[i]?).map fun item => task item i)
          = ((items[i]?).map fun item => task' item i) →
        (runConcurrent items task)[i]? = (runConcurrent items task')[i]?) := by
  refine ⟨mapWithIndex_length _ 0 items, ?_, ?_⟩
  · intro i
    simpa using mapWithIndex_getElem? (fun i item => mkOutcome item (task item i)) 0 items i
  · intro task' i h
    have h1 := mapWithIndex_getElem? (fun i item => mkOutcome item (task item i)) 0 items i
    have h2 := mapWithIndex_getElem? (fun i item => mkOutcome item (task' item i)) 0 items i
    unfold runConcurrent
    rw [h1, h2]
    cases hi : items[i]? with
    | none => rfl
    | some item =>
      rw [hi] at h
      simp at h
      simp [h]

def itemsABC : List String := ["A", "B", "C"]

/-- Task that throws `"boom"` exactly for item B. -/
def taskBoomB : String → Nat → Except String String := fun it _ =>
  if it = "B" then .error "boom" else .ok it

def taskAllOk : String → Nat → Except String String := fun it _ => .ok it

/-- C2 witness: `runConcurrent([A,B,C], task)` where B throws `"boom"` yields
`[success A, failure "boom" B, success C]` in input order, and A's outcome is
the same as under a task where nothing throws. -/
theorem claim_C2_witness :
    (runConcurrent itemsABC taskBoomB).length = 3
    ∧ (runConcurrent itemsABC taskBoomB)[0]? = some (Outcome.success "A" "A")
    ∧ (runConcurrent itemsABC taskBoomB)[1]? = some (Outcome.failure "boom" "B")
    ∧ (runConcurrent itemsABC taskBoomB)[2]? = some (Outcome.success "C" "C")
    ∧ (runConcurrent itemsABC taskBoomB)[0]? = (runConcurrent itemsABC taskAllOk)[0]? := by
  have h := claim_C2_runConcurrent_outcomes itemsABC taskBoomB
  refine ⟨h.1.trans (by rfl), (h.2.1 0).trans (by rfl), (h.2.1 1).trans (by rfl),
    (h.2.1 2).trans (by rfl), h.2.2 taskAllOk 0 (by rfl)⟩

/-- C3: `fetchAllWithPagination` repeatedly issues a request, replacing the
endpoint with the cursor of the prior response until none remains, and
returns the items of all pages concatenated in page-arrival order. -/
theorem claim_C3_pagination_complete {α : Type}
    (service : String → Except GError (Page α)) (ep : String) (ps : List (Page α))
    (fuel : Nat) (hchain : servesChain service ep ps) (hfuel : ps.length ≤ fuel) :
    fetchAllWithPagination service fuel (some ep) []
      = some (.ok (ps.map pageItems).flatten) := by
  simpa using fetchAllWithPagination_chain service ps ep fuel [] hchain hfuel

def page1 : Page Nat := ⟨some [1, 2], some "c2"⟩

def page2 : Page Nat := ⟨some [3, 4], some "c3"⟩

def page3 : Page Nat := ⟨some [5, 6], none⟩

/-- A service serving the three-page chain P1 → P2 → P3 with cursors
`"c2"`, `"c3"`, none. -/
def service3 : String → Except GError (Page Nat) := fun ep =>
  if ep = "e1" then .ok page1
  else if ep = "c2" then .ok page2
  else if ep = "c3" then .ok page3
  else .error ⟨some 404, none, "not found"⟩

/-- C3 witness: the P1→P2→P3 chain with two items per page yields all six
items in page order. -/
theorem claim_C3_witness :
    servesChain service3 "e1" [page1, page2, page3]
    ∧ fetchAllWithPagination service3 5 (some "e1") [] = some (.ok [1, 2, 3, 4, 5, 6]) := by
  have hchain : servesChain service3 "e1" [page1, page2, page3] :=
    ⟨rfl, "c2", rfl, rfl, "c3", rfl, rfl, rfl⟩
  exact ⟨hchain,
    (claim_C3_pagination_complete service3 "e1" [page1, page2, page3] 5 hchain
      (by decide)).trans (by rfl)⟩

/-- A 429 failure whose response carries no `Retry-After` header. -/
def axios429NoHeader : AxiosError := ⟨"rate limited", some ⟨429, none, none⟩⟩

/-- Operation failing once with the no-header 429, then succeeding. -/
def op429 : Nat → Except GError Nat := fun rc =>
  if rc = 0 then .error (handleError axios429NoHeader) else .ok 7

/-- C4 counterexample: a 429 whose response carries *no* server duration is
retried after the 60 s default that `handleError` substitutes, not after the
claimed `2^retriesSoFar = 1` s fallback — the wait performed is 60000 ms, not
`2^0 * 1000` ms. -/
theorem claim_C4_counterexample :
    fetchWithRetry 3 op429 0 = (.ok 7, [60000]) ∧ ¬ (60000 = 2 ^ 0 * 1000) := by
  exact ⟨rfl, by decide⟩

/-- C4 (amended): a 429 failure is retried after `error.retryAfter` when that
is present and non-zero — for a 429 built by `handleError` this is the
parsed `Retry-After` header in ms, or a fixed 60 s when the header is absent
— and after `2^retriesSoFar` seconds only when `retryAfter` is absent or
zero; a transient failure is retried after `2^retriesSoFar` seconds; both up
to the configured maximum retry count, with the most recent error propagated
unchanged on a non-retryable failure or on exhaustion. -/
theorem claim_C4_amended_retry_policy {α : Type} :
    (∀ (errs : List GError) (op : Nat → Except GError α) (maxRetries rc : Nat) (v : α),
      errs.length ≤ maxRetries - rc →
      (∀ i (h : i < errs.length), op (rc + i) = .error (errs.get ⟨i, h⟩)) →
      (∀ e ∈ errs, retryable e = true) →
      op (rc + errs.length) = .ok v →
      fetchWithRetry maxRetries op rc = (.ok v, backoffSchedule errs rc))
    ∧ (∀ (op : Nat → Except GError α) (maxRetries rc : Nat) (e : GError),
        op rc = .error e → retryable e = false →
        fetchWithRetry maxRetries op rc = (.error e, []))
    ∧ (∀ (gas : Nat) (f : Nat → GError) (op : Nat → Except GError α) (maxRetries rc : Nat),
        maxRetries - rc = gas →
        (∀ i, i ≤ gas → op (rc + i) = .error (f i)) →
        (∀ i, i < gas → retryable (f i) = true) →
        fetchWithRetry maxRetries op rc
          = (.error (f gas), backoffSchedule ((List.range gas).map f) rc))
    ∧ (∀ (e : GError) (rc : Nat), e.statusCode = some 429 →
        backoffDelay e rc = jsOrNum e.retryAfter (2 ^ rc * 1000))
    ∧ (∀ (e : GError) (rc : Nat), ¬ e.statusCode = some 429 →
        backoffDelay e rc = 2 ^ rc * 1000)
    ∧ (∀ msg : String,
        (handleError ⟨msg, some ⟨429, none, none⟩⟩).retryAfter = some 60000)
    ∧ (∀ (msg hd : String) (n : Nat), ¬ hd = "" → jsParseInt hd = some n →
        (handleError ⟨msg, some ⟨429, none, some hd⟩⟩).retryAfter = some (n * 1000)) := by
  refine ⟨?_, ?_, ?_, ?_, ?_, ?_, ?_⟩
  · intro errs op maxRetries rc v hlen herr hret hok
    exact fetchWithRetryGo_schedule errs op rc (maxRetries - rc) v hlen herr hret hok
  · intro op maxRetries rc e h hr
    exact fetchWithRetryGo_not_retryable op rc (maxRetries - rc) e h hr
  · intro gas f op maxRetries rc hgas herr hret
    unfold fetchWithRetry
    rw [hgas]
    exact fetchWithRetryGo_exhaust gas f op rc herr hret
  · intro e rc h; simp [backoffDelay, h]
  · intro e rc h; simp [backoffDelay, h]
  · intro msg; rfl
  · intro msg hd n hne hparse
    simp [handleError, jsStrOrNone, hne, hparse]

/-- A 429 carrying a one-second server hint (`retryAfter = 1000` ms, the
value `handleError` computes for a `Retry-After: 1` header). -/
def err429Hint : GError := ⟨some 429, some 1000, "rate limited"⟩

/-- Operation failing once with the one-second-hint 429, then succeeding. -/
def opHint : Nat → Except GError Nat := fun rc =>
  if rc = 0 then .error err429Hint else .ok 42

/-- A terminal (non-retryable) 404 error. -/
def err404 : GError := ⟨some 404, none, "not found"⟩

/-- Operation that always fails with a transient 500. -/
def op500 : Nat → Except GError Nat := fun _ => .error ⟨some 500, none, "boom"⟩

/-- C4 witness: (i) a call failing once with a rate-limit error carrying a
one-second hint completes with the result and a single 1000 ms wait;
(ii) a 404 propagates unchanged with no wait; (iii) a persistent transient
500 exhausts the budget with exponential waits and propagates. -/
theorem claim_C4_witness :
    fetchWithRetry 3 opHint 0 = (.ok 42, [1000])
    ∧ fetchWithRetry 3 (fun _ => (.error err404 : Except GError Nat)) 0 = (.error err404, [])
    ∧ fetchWithRetry 2 op500 0 = (.error ⟨some 500, none, "boom"⟩, [1000, 2000]) := by
  have h := claim_C4_amended_retry_policy (α := Nat)
  refine ⟨?_, ?_, ?_⟩
  · exact (h.1 [err429Hint] opHint 3 0 42 (by decide)
      (by
        intro i hi
        have : i = 0 := by simpa using Nat.lt_one_iff.mp (by simpa using hi)
        subst this
        rfl)
      (by intro e he; simp at he; subst he; rfl)
      (by rfl)).trans (by rfl)
  · exact h.2.1 (fun _ => .error err404) 3 0 err404 rfl (by rfl)
  · exact h.2.2.1 2 (fun _ => ⟨some 500, none, "boom"⟩) op500 2 0 rfl
      (by intro i _; rfl) (by intro i _; rfl)

/-- Event E1 with an existing stored attendee row for `a1`. -/
def e1row : EventRow :=
  ⟨"E1", "u1", some "standup", none, none, none, none, false, false, none, "t0", "t0"⟩

def a1row : AttendeeRow := buildAttendeeRow "E1" a1

def dbWithE1 : EventDB := ⟨[e1row], [a1row]⟩

/-- E1 upserted again, this time carrying an *empty* attendee collection. -/
def e1emptyAttendees : EventData := { e1 with attendees := some [] }

/-- C5 counterexample: a committed upsert of E1 whose supplied attendee
collection is empty leaves the previously stored attendee `a1` in place —
the stored child set is `[a1]`, not the supplied empty set. -/
theorem claim_C5_counterexample :
    ((upsertEvent (fun s => s) "t1" envAllOk e1emptyAttendees "u1" dbWithE1).2).isOk = true
    ∧ attendeesOf "E1" (upsertEvent (fun s => s) "t1" envAllOk e1emptyAttendees "u1" dbWithE1).1
        = [a1row]
    ∧ ¬ ([a1row] = ([] : List AttendeeRow)) := by
  refine ⟨rfl, rfl, by simp⟩

/-- C5 (amended): after every successfully committed upsert, the stored
attendee set of the parent equals the supplied collection when that
collection is non-empty (whole-set replacement: delete-all then insert); when
the supplied collection is empty or missing, the previously stored attendees
are left unchanged.  Other parents' attendee sets are never touched. -/
theorem claim_C5_amended_attendee_replacement
    (iso : String → String) (now : String) (env : DbEnv) (ev : EventData)
    (userId : String) (db : EventDB) (r : String)
    (h : (upsertEvent iso now env ev userId db).2 = .ok r) :
    (attendeesOf ev.id (upsertEvent iso now env ev userId db).1
      = match ev.attendees with
        | some l =>
          if 0 < l.length then l.map (buildAttendeeRow ev.id) else attendeesOf ev.id db
        | none => attendeesOf ev.id db)
    ∧ (∀ otherId : String, ¬ otherId = ev.id →
        attendeesOf otherId (upsertEvent iso now env ev userId db).1
          = attendeesOf otherId db) := by
  obtain ⟨-, -, hatt⟩ := upsertEvent_ok_state h
  exact ⟨attendeesOf_committed ev db _ hatt,
    fun otherId hne => attendeesOf_committed_other ev db _ hatt otherId hne⟩

/-- C5 witness: a committed upsert of E1 with the non-empty collection
`[a1, a2]` stores exactly those two attendee rows for E1 and leaves another
event's attendee set untouched. -/
theorem claim_C5_witness :
    attendeesOf "E1" (upsertEvent (fun s => s) "t1" envAllOk e1 "u1" dbWithE1).1
      = [buildAttendeeRow "E1" a1, buildAttendeeRow "E1" a2]
    ∧ attendeesOf "E9" (upsertEvent (fun s => s) "t1" envAllOk e1 "u1" dbWithE1).1
      = attendeesOf "E9" dbWithE1 := by
  have h := claim_C5_amended_attendee_replacement (fun s => s) "t1" envAllOk e1 "u1"
    dbWithE1 "E1" (by rfl)
  exact ⟨h.1.trans (by rfl), h.2 "E9" (by decide)⟩

/-- An event served by the remote calendar listing. -/
def ev1 : EventData :=
  ⟨"EV1", some "sync", none, none, none, none, none, none, none, some [a1]⟩

/-- A calendar service serving one page with the single event `ev1`. -/
def eventServ : String → Except GError (Page EventData) := fun ep =>
  if ep = eventsEndpoint "u1" then .ok ⟨some [ev1], none⟩
  else .error ⟨some 404, none, "not found"⟩

/-- C6: `scanUserEvents` passes an `onPage` options object to the fetcher, but
`fetchAllWithPagination` declares no options parameter, so the callback is
dropped at the call boundary and never invoked: a served page with one event
yields `{eventsProcessed: 0, eventsFailed: 0}` and an unchanged store — the
event is never delivered or persisted.  The second conjunct evaluates the
`onPage` handler the caller built, showing it *would* have processed and
persisted the event had it been invoked; the crawl-side half of the claim
fails too, since `scanFolderRecursively` buffers the whole subtree into its
returned array and `scanUserFiles` persists only afterwards. -/
theorem claim_C6_onPage_never_invoked :
    scanUserEvents (fun s => s) "t0" envAllOk eventServ 3 5 "u1" emptyEventDB
      = some (.ok (0, 0), emptyEventDB)
    ∧ eventScanOnPage (fun s => s) "t0" envAllOk "u1" [ev1]
        { processed := 0, failed := 0, db := emptyEventDB }
      = { processed := 1, failed := 0,
          db := (upsertEvent (fun s => s) "t0" envAllOk ev1 "u1" emptyEventDB).1 } := by
  exact ⟨rfl, rfl⟩

/-- A 403 listing error. -/
def err403 : GError := ⟨some 403, none, "forbidden"⟩

/-- A drive service on which every listing fails with 403. -/
def driveServ403 : String → Except GError (Page DriveItem) := fun _ => .error err403

/-- C7 counterexample: a 403 on listing the OneDrive root makes
`scanUserFiles` propagate the error — it does not return a benign empty
result, contrary to the claim that both 404 and 403 are treated as benign for
every per-owner scan. -/
theorem claim_C7_counterexample :
    scanUserFiles driveServ403 (fun _ => true) 3 5 4 "u1" [] = some (.error err403, [])
    ∧ err403.statusCode = some 403 := by
  exact ⟨rfl, rfl⟩

/-- C7 (amended): when listing the hierarchical root fails, the files scan
treats only 404 as benign (returning an empty item list and leaving the store
untouched) while 403 and every other status propagate; the events scan treats
both 404 and 403 as benign (returning zero processed / zero failed counts)
and propagates every other status. -/
theorem claim_C7_amended_benign_statuses :
    (∀ (service : String → Except GError (Page DriveItem)) (fenv : String → Bool)
        (maxRetries pageFuel crawlFuel : Nat) (userId : String) (db : FileDB) (e : GError),
      fetchAllWithPagination service pageFuel (some (childrenEndpoint userId "root")) []
          = some (.error e) →
      (e.statusCode = some 404 →
        scanUserFiles service fenv maxRetries pageFuel (crawlFuel + 1) userId db
          = some (.ok [], db))
      ∧ (¬ e.statusCode = some 404 →
        scanUserFiles service fenv maxRetries pageFuel (crawlFuel + 1) userId db
          = some (.error e, db)))
    ∧ (∀ (iso : String → String) (now : String) (env : DbEnv)
        (service : String → Except GError (Page EventData)) (maxRetries pageFuel : Nat)
        (userId : String) (db : EventDB) (e : GError),
      fetchAllWithPagination service pageFuel (some (eventsEndpoint userId)) []
          = some (.error e) →
      ((e.statusCode = some 404 ∨ e.statusCode = some 403) →
        scanUserEvents iso now env service maxRetries pageFuel userId db
          = some (.ok (0, 0), db))
      ∧ (¬ (e.statusCode = some 404 ∨ e.statusCode = some 403) →
        scanUserEvents iso now env service maxRetries pageFuel userId db
          = some (.error e, db))) := by
  constructor
  · intro service fenv maxRetries pageFuel crawlFuel userId db e hfetch
    have hretry :
        (fetchWithRetry maxRetries
          (fun _ => (Except.error e : Except GError (List DriveItem))) 0).1 = .error e := by
      unfold fetchWithRetry
      exact fetchWithRetryGo_const_error e (maxRetries - 0) 0
    have hcrawl :
        scanFolderRecursively service maxRetries pageFuel userId (crawlFuel + 1) "root"
          = some (.error e) := by
      unfold scanFolderRecursively
      rw [hfetch]
      dsimp only
      rw [hretry]
    constructor
    · intro h404
      unfold scanUserFiles
      rw [hcrawl]
      simp [h404]
    · intro hne
      unfold scanUserFiles
      rw [hcrawl]
      simp [hne]
  · intro iso now env service maxRetries pageFuel userId db e hfetch
    have hretry :
        (fetchWithRetry maxRetries
          (fun _ => (Except.error e : Except GError (List EventData))) 0).1 = .error e := by
      unfold fetchWithRetry
      exact fetchWithRetryGo_const_error e (maxRetries - 0) 0
    constructor
    · intro hcond
      unfold scanUserEvents fetchAllWithPaginationCalledWithOptions
      rw [hfetch]
      dsimp only
      rw [hretry]
      simp [hcond]
    · intro hcond
      unfold scanUserEvents fetchAllWithPaginationCalledWithOptions
      rw [hfetch]
      dsimp only
      rw [hretry]
      simp [hcond]

/-- A drive service on which every listing fails with 404. -/
def driveServ404 : String → Except GError (Page DriveItem) := fun _ => .error err404

/-- A calendar service on which every listing fails with 403. -/
def eventServ403 : String → Except GError (Page EventData) := fun _ => .error err403

/-- A transient 500 listing error and a calendar service that always throws it. -/
def err500 : GError := ⟨some 500, none, "server error"⟩

def eventServ500 : String → Except GError (Page EventData) := fun _ => .error err500

/-- C7 witness: a 404 root makes the files scan return the benign empty list;
a 403 root makes the events scan return the benign zero counts; a 500 root
makes the events scan propagate the error. -/
theorem claim_C7_witness :
    scanUserFiles driveServ404 (fun _ => true) 3 5 4 "u1" [] = some (.ok [], [])
    ∧ scanUserEvents (fun s => s) "t0" envAllOk eventServ403 3 5 "u1" emptyEventDB
        = some (.ok (0, 0), emptyEventDB)
    ∧ scanUserEvents (fun s => s) "t0" envAllOk eventServ500 3 5 "u1" emptyEventDB
        = some (.error err500, emptyEventDB) := by
  have h := claim_C7_amended_benign_statuses
  refine ⟨(h.1 driveServ404 (fun _ => true) 3 5 3 "u1" [] err404 (by rfl)).1 rfl, ?_, ?_⟩
  · exact (h.2 (fun s => s) "t0" envAllOk eventServ403 3 5 "u1" emptyEventDB err403
      (by rfl)).1 (Or.inr rfl)
  · exact (h.2 (fun s => s) "t0" envAllOk eventServ500 3 5 "u1" emptyEventDB err500
      (by rfl)).2 (by simp [err500])

def itemF1 : DriveItem := ⟨"F1", true, false⟩

def itemG : DriveItem := ⟨"G", false, true⟩

def itemF2 : DriveItem := ⟨"F2", true, false⟩

/-- A drive whose root holds leaf F1 and container G, with G holding leaf F2. -/
def driveServ : String → Except GError (Page DriveItem) := fun ep =>
  if ep = childrenEndpoint "u1" "root" then .ok ⟨some [itemF1, itemG], none⟩
  else if ep = childrenEndpoint "u1" "G" then .ok ⟨some [itemF2], none⟩
  else .error ⟨some 404, none, "not found"⟩

/-- Persistence oracle under which storing F1 throws. -/
def failF1 : String → Bool := fun fid => if fid = "F1" then false else true

/-- C8 counterexample: in the root{F1, G{F2}} scenario with F1's persistence
failing, `scanUserFiles` returns the full discovered list `[F1, F2]` and a
store holding only F2 — not a `{processed: 1, failed: 1}` record; the
returned value is identical to the one of a run where nothing fails, so the
result carries no failed count at all. -/
theorem claim_C8_counterexample :
    scanUserFiles driveServ failF1 3 5 4 "u1" []
      = some (.ok [itemF1, itemF2], [⟨"F2", "u1"⟩])
    ∧ (scanUserFiles driveServ failF1 3 5 4 "u1" []).map Prod.fst
      = (scanUserFiles driveServ (fun _ => true) 3 5 4 "u1" []).map Prod.fst := by
  exact ⟨rfl, rfl⟩

/-- C8 (amended): a persistence failure on one leaf is caught per item and
does not abort the scan: the crawl (listing and recursion) is unaffected —
the value `scanUserFiles` returns is independent of the persistence oracle
and of the prior store — and every other discovered leaf whose persistence
succeeds is stored; the scan returns the list of all discovered files, not
processed/failed counts. -/
theorem claim_C8_amended_crawl_isolation
    (service : String → Except GError (Page DriveItem)) (fenv fenv' : String → Bool)
    (maxRetries pageFuel crawlFuel : Nat) (userId : String) (db db' : FileDB) :
    ((scanUserFiles service fenv maxRetries pageFuel crawlFuel userId db).map Prod.fst
      = (scanUserFiles service fenv' maxRetries pageFuel crawlFuel userId db').map Prod.fst)
    ∧ (∀ (files : List DriveItem) (dbOut : FileDB),
        scanUserFiles service fenv maxRetries pageFuel crawlFuel userId db
          = some (.ok files, dbOut) →
        ∀ f ∈ files, fenv f.id = true → ∃ r ∈ dbOut, r.id = f.id) := by
  constructor
  · exact scanUserFiles_result_env service fenv fenv' maxRetries pageFuel crawlFuel userId db db'
  · intro files dbOut h f hmem hf
    unfold scanUserFiles at h
    cases hc : scanFolderRecursively service maxRetries pageFuel userId crawlFuel "root" with
    | none => rw [hc] at h; simp at h
    | some res =>
      rw [hc] at h
      cases res with
      | error e =>
        by_cases h404 : e.statusCode = some 404
        · simp only [h404, if_pos, Option.some.injEq, Prod.mk.injEq, Except.ok.injEq] at h
          rw [← h.1] at hmem
          simp at hmem
        · simp [h404] at h
      | ok allFiles =>
        simp only [Option.some.injEq, Prod.mk.injEq, Except.ok.injEq] at h
        obtain ⟨hfiles, hdbout⟩ := h
        subst hfiles
        subst hdbout
        exact persistFiles_mem _ db f hmem hf

/-- C8 witness: in the root{F1, G{F2}} scenario with F1's persistence
failing, the returned value matches the all-success run's (no failure is
reported), and F2 — a leaf of the still-visited container G — is stored. -/
theorem claim_C8_witness :
    ((scanUserFiles driveServ failF1 3 5 4 "u1" []).map Prod.fst
      = (scanUserFiles driveServ (fun _ => true) 3 5 4 "u1" []).map Prod.fst)
    ∧ ∃ r ∈ ([⟨"F2", "u1"⟩] : FileDB), r.id = itemF2.id := by
  have h := claim_C8_amended_crawl_isolation driveServ failF1 (fun _ => true) 3 5 4 "u1" [] []
  exact ⟨h.1,
    h.2 [itemF1, itemF2] [⟨"F2", "u1"⟩] (by rfl) itemF2 (by simp) (by rfl)⟩

/-- A zero-argument asynchronous provider, as a JS function value: its source
text and the credential awaiting it would yield. -/
def providerTok : TokenArg := .fn "async () => refreshToken()" "tok0"

/-- C9: `GraphApiService.get` never invokes a supplied token provider — the
provider function value itself is interpolated into the authorization header
(`Bearer ${accessToken}` stringifies the function), so the request does not
carry the credential the provider would have resolved to. -/
theorem claim_C9_provider_not_invoked :
    (getRequest "https://graph.example" "/users/u1/calendar/events" providerTok).authorization
      = "Bearer " ++ jsTemplateString providerTok
    ∧ ¬ (getRequest "https://graph.example" "/users/u1/calendar/events" providerTok).authorization
      = "Bearer tok0" := by
  exact ⟨rfl, by decide⟩

theorem backoffSchedule_noResponse :
    ∀ (msgs : List String) (rc : Nat),
      backoffSchedule (msgs.map fun m => handleError ⟨m, none⟩) rc
        = (List.range msgs.length).map fun i => 2 ^ (rc + i) * 1000 := by
  intro msgs
  induction msgs with
  | nil => intro rc; rfl
  | cons m rest ih =>
    intro rc
    simp only [List.map_cons, backoffSchedule, List.length_cons, List.range_succ_eq_map,
      List.map_map]
    congr 1
    exact (ih (rc + 1)).trans (by
      apply List.map_congr_left
      intro i _
      simp only [Function.comp]
      have h2 : rc + 1 + i = rc + (i + 1) := by omega
      rw [h2])

/-- C10: a failure of the underlying HTTP client that carries no HTTP
response at all is wrapped by `handleError` into an error whose status code
defaults to 500; `isTransientError` classifies it as transient, so
`fetchWithRetry` retries such no-response failures with pure exponential
backoff (`2^attempt` seconds) up to the retry cap instead of propagating them
immediately. -/
theorem claim_C10_no_response_retried {α : Type} :
    (∀ msg : String, handleError ⟨msg, none⟩
        = { statusCode := some 500, retryAfter := none, message := msg })
    ∧ (∀ msg : String, isTransientError (handleError ⟨msg, none⟩) = true)
    ∧ (∀ msg : String, retryable (handleError ⟨msg, none⟩) = true)
    ∧ (∀ (msgs : List String) (op : Nat → Except GError α) (maxRetries rc : Nat) (v : α),
        msgs.length ≤ maxRetries - rc →
        (∀ i (h : i < msgs.length),
          op (rc + i) = .error (handleError ⟨msgs.get ⟨i, h⟩, none⟩)) →
        op (rc + msgs.length) = .ok v →
        fetchWithRetry maxRetries op rc
          = (.ok v, (List.range msgs.length).map fun i => 2 ^ (rc + i) * 1000)) := by
  refine ⟨fun _ => rfl, fun _ => rfl, fun _ => rfl, ?_⟩
  intro msgs op maxRetries rc v hlen herr hok
  have hsch := fetchWithRetryGo_schedule (msgs.map fun m => handleError ⟨m, none⟩) op rc
    (maxRetries - rc) v (by simpa using hlen)
    (by
      intro i hi
      have hi' : i < msgs.length := by simpa using hi
      have := herr i hi'
      rw [this]
      congr 1
      simp [List.getElem_map])
    (by
      intro e he
      obtain ⟨m, -, hm⟩ := List.mem_map.mp he
      rw [← hm]
      rfl)
    (by simpa using hok)
  unfold fetchWithRetry
  rw [hsch, backoffSchedule_noResponse]

/-- Operation failing twice with no-response (network-level) errors, then
succeeding. -/
def opNoResponse : Nat → Except GError Nat := fun rc =>
  if rc = 0 then .error (handleError ⟨"econnreset", none⟩)
  else if rc = 1 then .error (handleError ⟨"socket hang up", none⟩)
  else .ok 9

/-- C10 witness: two successive no-response failures are retried after 1 s
and 2 s and the third attempt's value is returned. -/
theorem claim_C10_witness :
    fetchWithRetry 3 opNoResponse 0 = (.ok 9, [1000, 2000])
    ∧ isTransientError (handleError ⟨"econnreset", none⟩) = true := by
  have h := claim_C10_no_response_retried (α := Nat)
  refine ⟨?_, h.2.1 "econnreset"⟩
  exact (h.2.2.2 ["econnreset", "socket hang up"] opNoResponse 3 0 9 (by decide)
    (by
      intro i hi
      match i with
      | 0 => rfl
      | 1 => rfl
      | n + 2 => exact absurd hi (by simp)
      )
    (by rfl)).trans (by rfl)

end O365
